import Mathlib

/-!
Shallow embedding of the go-anyway/framework-log repository: the Options /
Config configuration model (src/options.go), the logger factory `New` and the
sink resolution `getWriteSyncer` / `getErrorWriteSyncer`, the global logger
slot with `Init` (src/log.go), the context field extractor `FromContext` /
`extractTraceID`, and the gin writer adapters (src/unnamed/part_000).

Go strings are modelled as Lean `String` (byte slices written through the
adapters as `List Nat` of byte values); Go `int` is `Int`; the mutation of the
`*Options` argument performed by `New` is made explicit by returning the
post-call value of the argument alongside the constructed logger.
-/

namespace FrameworkLog

/-- Log severities of zapcore.Level (external collaborator go.uber.org/zap). -/
inductive ZapLevel where
  | debug
  | info
  | warn
  | error
  | dpanic
  | panic
  | fatal
deriving DecidableEq, Repr

/-- ASCII lowering of a string, modelling strings.ToLower / bytes.ToLower on
the ASCII inputs that matter for sink names and level names; it lowers each
character in place. -/
def asciiToLower (s : String) : String :=
  String.mk (s.data.map Char.toLower)

/-- The exact-match switch of zapcore.Level.unmarshalText (zap v1.27.1,
zapcore/level.go): the seven lowercase names, the seven uppercase names, and
the empty string (which parses as info). -/
def unmarshalLevelExact (s : String) : Option ZapLevel :=
  match s with
  | "debug" | "DEBUG" => some ZapLevel.debug
  | "info" | "INFO" | "" => some ZapLevel.info
  | "warn" | "WARN" => some ZapLevel.warn
  | "error" | "ERROR" => some ZapLevel.error
  | "dpanic" | "DPANIC" => some ZapLevel.dpanic
  | "panic" | "PANIC" => some ZapLevel.panic
  | "fatal" | "FATAL" => some ZapLevel.fatal
  | _ => none

/-- zapcore.Level.UnmarshalText: try the text as given, then lowercased;
`none` models the returned error. -/
def unmarshalLevel (s : String) : Option ZapLevel :=
  match unmarshalLevelExact s with
  | some l => some l
  | none => unmarshalLevelExact (asciiToLower s)

/-- The Options struct of src/options.go. -/
structure Options where
  OutputPaths : List String
  ErrorOutputPaths : List String
  Level : String
  Format : String
  DisableCaller : Bool
  DisableStacktrace : Bool
  Filename : String
  MaxSize : Int
  MaxAge : Int
  MaxBackups : Int
  Compress : Bool
  Development : Bool
deriving DecidableEq, Repr

/-- NewOptions: the default configuration. -/
def NewOptions : Options :=
  { Level := "info"
    Format := "console"
    OutputPaths := ["stdout"]
    ErrorOutputPaths := ["stderr"]
    DisableCaller := false
    DisableStacktrace := false
    Filename := ""
    MaxSize := 0
    MaxAge := 0
    MaxBackups := 0
    Compress := false
    Development := false }

/-- The Option type of src/options.go: a function mutating an Options value. -/
abbrev GoOption := Options → Options

/-- Options.Apply: apply the given option functions in call order. -/
def Options.Apply (o : Options) (opts : List GoOption) : Options :=
  opts.foldl (fun acc f => f acc) o

/-- WithLevel: store the level string only when zap's level parser accepts it
(src/options.go, using zapcore.Level.UnmarshalText for validation). -/
def WithLevel (level : String) : GoOption := fun o =>
  match unmarshalLevel level with
  | some _ => { o with Level := level }
  | none => o

/-- WithFormat. -/
def WithFormat (format : String) : GoOption := fun o => { o with Format := format }

/-- WithOutputPaths. -/
def WithOutputPaths (paths : List String) : GoOption := fun o => { o with OutputPaths := paths }

/-- WithErrorOutputPaths. -/
def WithErrorOutputPaths (paths : List String) : GoOption := fun o =>
  { o with ErrorOutputPaths := paths }

/-- WithDisableCaller. -/
def WithDisableCaller (disable : Bool) : GoOption := fun o => { o with DisableCaller := disable }

/-- WithDisableStacktrace. -/
def WithDisableStacktrace (disable : Bool) : GoOption := fun o =>
  { o with DisableStacktrace := disable }

/-- WithFilename. -/
def WithFilename (filename : String) : GoOption := fun o => { o with Filename := filename }

/-- WithMaxSize. -/
def WithMaxSize (maxSize : Int) : GoOption := fun o => { o with MaxSize := maxSize }

/-- WithMaxAge. -/
def WithMaxAge (maxAge : Int) : GoOption := fun o => { o with MaxAge := maxAge }

/-- WithMaxBackups. -/
def WithMaxBackups (maxBackups : Int) : GoOption := fun o => { o with MaxBackups := maxBackups }

/-- WithCompress. -/
def WithCompress (compress : Bool) : GoOption := fun o => { o with Compress := compress }

/-- WithDevelopment. -/
def WithDevelopment (development : Bool) : GoOption := fun o =>
  { o with Development := development }

/-- The Config struct of src/options.go (loaded from configuration files). -/
structure Config where
  Level : String
  Format : String
  OutputPaths : List String
  ErrorOutputPaths : List String
  DisableCaller : Bool
  DisableStacktrace : Bool
  Filename : String
  MaxSize : Int
  MaxAge : Int
  MaxBackups : Int
  Compress : Bool
  Development : Bool
deriving DecidableEq, Repr

/-- The validLevels set of Config.Validate (exact lowercase names only). -/
def validLevelStrings : List String :=
  ["debug", "info", "warn", "error", "dpanic", "panic", "fatal"]

/-- The validFormats set of Config.Validate. -/
def validFormatStrings : List String := ["json", "console"]

/-- Config.Validate (src/options.go). The receiver is a pointer, so a `none`
argument models a nil receiver; `some msg` models a non-nil error with the
formatted message, `none` result models a nil error. -/
def Config.Validate (c : Option Config) : Option String :=
  match c with
  | none => some "log config cannot be nil"
  | some c =>
    if c.Level ≠ "" ∧ c.Level ∉ validLevelStrings then
      some ("log.level must be one of: debug, info, warn, error, dpanic, panic, fatal, got "
        ++ c.Level)
    else if c.Format ≠ "" ∧ c.Format ∉ validFormatStrings then
      some ("log.format must be one of: json, console, got " ++ c.Format)
    else if c.MaxSize < 0 then
      some ("log.max_size must be non-negative, got " ++ toString c.MaxSize)
    else if c.MaxAge < 0 then
      some ("log.max_age must be non-negative, got " ++ toString c.MaxAge)
    else if c.MaxBackups < 0 then
      some ("log.max_backups must be non-negative, got " ++ toString c.MaxBackups)
    else none

/-- ToLogOptionsFromConfig (src/options.go): start from NewOptions, then
overwrite every one of the twelve fields from the provider. The Config
getters return the corresponding fields unchanged, so they are inlined. -/
def ToLogOptionsFromConfig (cfg : Option Config) : Options :=
  match cfg with
  | none => NewOptions
  | some cfg =>
    { NewOptions with
      Level := cfg.Level
      Format := cfg.Format
      OutputPaths := cfg.OutputPaths
      ErrorOutputPaths := cfg.ErrorOutputPaths
      DisableCaller := cfg.DisableCaller
      DisableStacktrace := cfg.DisableStacktrace
      Filename := cfg.Filename
      MaxSize := cfg.MaxSize
      MaxAge := cfg.MaxAge
      MaxBackups := cfg.MaxBackups
      Compress := cfg.Compress
      Development := cfg.Development }

/-- Config.ToOptions (src/options.go): nil receiver gives the defaults,
otherwise delegate to ToLogOptionsFromConfig. -/
def Config.ToOptions (c : Option Config) : Options :=
  match c with
  | none => NewOptions
  | some c => ToLogOptionsFromConfig (some c)

/-- The lumberjack.Logger rotation configuration built by getWriteSyncer
(external collaborator gopkg.in/natefinch/lumberjack.v2). -/
structure LumberjackLogger where
  Filename : String
  MaxSize : Int
  MaxBackups : Int
  MaxAge : Int
  Compress : Bool
deriving DecidableEq, Repr

/-- A resolved zapcore.WriteSyncer sink: one of the two console streams or a
rotating file governed by a lumberjack configuration. -/
inductive Sink where
  | stdout
  | stderr
  | file (cfg : LumberjackLogger)
deriving DecidableEq, Repr

/-- The lumberjack configuration getWriteSyncer builds from the options. -/
def lumberjackOf (opts : Options) : LumberjackLogger :=
  { Filename := opts.Filename
    MaxSize := opts.MaxSize
    MaxBackups := opts.MaxBackups
    MaxAge := opts.MaxAge
    Compress := opts.Compress }

/-- The console-path loop shared by getWriteSyncer and getErrorWriteSyncer:
lowercase each path, skip paths whose lowercase form was already added (the
consoleWriters map), append the stdout or stderr sink for the two recognized
names, and drop every other name without recording it. -/
def consoleAppend (sinks : List Sink) (seen : List String) : List String → List Sink
  | [] => sinks
  | path :: rest =>
    if asciiToLower path ∈ seen then
      consoleAppend sinks seen rest
    else if asciiToLower path = "stdout" then
      consoleAppend (sinks ++ [Sink.stdout]) (asciiToLower path :: seen) rest
    else if asciiToLower path = "stderr" then
      consoleAppend (sinks ++ [Sink.stderr]) (asciiToLower path :: seen) rest
    else
      consoleAppend sinks seen rest

/-- getWriteSyncer (src/log.go): the rotating-file sink first when a filename
is configured, then the deduplicated console sinks from OutputPaths. The
resulting list models the multiwriter over all resolved sinks; an empty list
is a multiwriter with no destinations, which discards every write. -/
def getWriteSyncer (opts : Options) : List Sink :=
  consoleAppend (if opts.Filename = "" then [] else [Sink.file (lumberjackOf opts)]) []
    opts.OutputPaths

/-- getErrorWriteSyncer (src/log.go): deduplicated console sinks from
ErrorOutputPaths, defaulting to stderr when none resolve. -/
def getErrorWriteSyncer (opts : Options) : List Sink :=
  if consoleAppend [] [] opts.ErrorOutputPaths = [] then [Sink.stderr]
  else consoleAppend [] [] opts.ErrorOutputPaths

/-- The configuration of the zap logger assembled by New: resolved level,
encoder choice, sinks, error sinks, and the zap options added. -/
structure ZapCore where
  level : ZapLevel
  jsonEncoder : Bool
  sinks : List Sink
  errorSinks : List Sink
  addCaller : Bool
  stacktraceLevel : Option ZapLevel
  development : Bool
deriving DecidableEq, Repr

/-- The development-mode branch at the top of New (src/log.go): it mutates the
passed Options, promoting level info to debug and clearing DisableCaller. -/
def devNormalize (opts : Options) : Options :=
  if opts.Development then
    { opts with
      Level := if opts.Level = "info" then "debug" else opts.Level
      DisableCaller := false }
  else opts

/-- The assembly of the zap logger from the (already normalized) options:
level parse falling back to info, encoder by format, the two syncers, caller
and stacktrace options. -/
def buildCore (o : Options) : ZapCore :=
  { level := (unmarshalLevel o.Level).getD ZapLevel.info
    jsonEncoder := o.Format = "json"
    sinks := getWriteSyncer o
    errorSinks := getErrorWriteSyncer o
    addCaller := !o.DisableCaller
    stacktraceLevel :=
      if o.DisableStacktrace then none
      else some (if o.Development then ZapLevel.warn else ZapLevel.error)
    development := o.Development }

/-- New (src/log.go). New receives a pointer and its development branch writes
through it, so the first component is the value of the caller's Options after
the call; the second is the constructed logger configuration. -/
def New (opts : Options) : Options × ZapCore :=
  let o := devNormalize opts
  (o, buildCore o)

/-- A zap.Logger instance: a distinct identity per construction (zap.New and
zap.Logger.With return fresh instances), its core configuration, and the
structured fields bound by With. -/
structure Logger where
  uid : Nat
  core : ZapCore
  extra : List (String × String)
deriving DecidableEq, Repr

/-- zap.Logger.With: a child logger with the fields appended; the receiver is
not modified. -/
def Logger.With (l : Logger) (fields : List (String × String)) : Logger :=
  { l with extra := l.extra ++ fields }

/-- The package state: the global std slot and a counter supplying fresh
instance identities. -/
structure LogState where
  std : Logger
  nextUid : Nat
deriving DecidableEq, Repr

/-- The package init function: std starts as New over the default options. -/
def initState : LogState :=
  { std := { uid := 0, core := (New NewOptions).2, extra := [] }, nextUid := 1 }

/-- Init (src/log.go): build a fresh configuration from the defaults, apply
the given option functions, and replace std with a newly built logger. -/
def Init (s : LogState) (opts : List GoOption) : LogState :=
  let o := Options.Apply NewOptions opts
  { std := { uid := s.nextUid, core := (New o).2, extra := [] }
    nextUid := s.nextUid + 1 }

/-- The zapWriter adapter of src/unnamed/part_000: the logger captured at
construction and the fixed severity. -/
structure zapWriter where
  logger : Logger
  level : ZapLevel
deriving DecidableEq, Repr

/-- GinWriter: an adapter over the logger that is global in the given state,
fixed at info severity. -/
def GinWriter (s : LogState) : zapWriter :=
  { logger := s.std, level := ZapLevel.info }

/-- GinErrorWriter: an adapter over the logger that is global in the given
state, fixed at error severity. -/
def GinErrorWriter (s : LogState) : zapWriter :=
  { logger := s.std, level := ZapLevel.error }

/-- A log entry emitted by an adapter write: through which logger instance it
was emitted, at which severity, with which message bytes. -/
structure Entry where
  logger : Logger
  level : ZapLevel
  msg : List Nat
deriving DecidableEq, Repr

/-- The trailing-newline strip in zapWriter.Write: drop the last byte when the
slice is non-empty and ends in a newline (byte 10). -/
def stripTrailingNewline (p : List Nat) : List Nat :=
  match p.getLast? with
  | some 10 => p.dropLast
  | _ => p

/-- The severity switch in zapWriter.Write: debug, info, warn and error map to
themselves and every other level falls to the default branch, info. -/
def emitLevel (l : ZapLevel) : ZapLevel :=
  match l with
  | ZapLevel.debug => ZapLevel.debug
  | ZapLevel.info => ZapLevel.info
  | ZapLevel.warn => ZapLevel.warn
  | ZapLevel.error => ZapLevel.error
  | _ => ZapLevel.info

/-- zapWriter.Write (src/unnamed/part_000): strip one trailing newline, emit
exactly one entry through the captured logger at the switched severity, and
return (len p, nil) unconditionally. The first component is the Go return
value (byte count and error), the second the list of entries emitted. -/
def zapWriter.Write (w : zapWriter) (p : List Nat) : (Nat × Option String) × List Entry :=
  ((p.length, none),
   [{ logger := w.logger, level := emitLevel w.level, msg := stripTrailingNewline p }])

/-- An OpenTelemetry span context: whether it reports itself valid, and its
trace id string. -/
structure SpanContext where
  valid : Bool
  traceID : String
deriving DecidableEq, Repr

/-- A context.Context as the claims need it: an optional embedded span and the
values stored under the two private context keys (the setters store strings,
so the stored values are modelled as optional strings). -/
structure Ctx where
  span : Option SpanContext
  traceVal : Option String
  requestVal : Option String
deriving DecidableEq, Repr

/-- ContextWithTraceID: store the trace id under the private traceIDKey. -/
def ContextWithTraceID (c : Ctx) (traceID : String) : Ctx :=
  { c with traceVal := some traceID }

/-- ContextWithRequestID: store the request id under the private
requestIDKey. -/
def ContextWithRequestID (c : Ctx) (requestID : String) : Ctx :=
  { c with requestVal := some requestID }

/-- trace.SpanFromContext: the embedded span when present, otherwise a noop
span whose span context is invalid. -/
def spanFromContext (c : Ctx) : SpanContext :=
  match c.span with
  | some s => s
  | none => { valid := false, traceID := "" }

/-- extractTraceID (src/log.go): the span's trace id when the span context is
valid; otherwise the non-empty string under the custom key; otherwise "". -/
def extractTraceID (c : Ctx) : String :=
  if (spanFromContext c).valid then (spanFromContext c).traceID
  else
    match c.traceVal with
    | some t => if t ≠ "" then t else ""
    | none => ""

/-- TraceIDFromContext (src/log.go): delegates to extractTraceID. -/
def TraceIDFromContext (c : Ctx) : String :=
  extractTraceID c

/-- RequestIDFromContext (src/log.go): nil context gives ""; otherwise the
string under the custom request key, defaulting to "". -/
def RequestIDFromContext (ctx : Option Ctx) : String :=
  match ctx with
  | none => ""
  | some c =>
    match c.requestVal with
    | some r => r
    | none => ""

/-- FromContext (src/log.go), with the global std passed explicitly: nil
context gives std; otherwise collect the traceID field (span first, custom
key fallback) and the requestID field (custom key only, non-empty), return
std itself when no field was collected, and otherwise a child via With — the
global std is never reassigned by this function. -/
def FromContext (std : Logger) (ctx : Option Ctx) : Logger :=
  match ctx with
  | none => std
  | some c =>
    let traceFields :=
      if extractTraceID c ≠ "" then [("traceID", extractTraceID c)] else []
    let fields :=
      match c.requestVal with
      | some r => if r ≠ "" then traceFields ++ [("requestID", r)] else traceFields
      | none => traceFields
    if fields = [] then std else Logger.With std fields

/-- A Config with every field at its zero value, for concrete evaluation. -/
def zeroConfig : Config :=
  { Level := ""
    Format := ""
    OutputPaths := []
    ErrorOutputPaths := []
    DisableCaller := false
    DisableStacktrace := false
    Filename := ""
    MaxSize := 0
    MaxAge := 0
    MaxBackups := 0
    Compress := false
    Development := false }

/-- A context with no span and no stored values, for concrete evaluation. -/
def emptyCtx : Ctx :=
  { span := none, traceVal := none, requestVal := none }

/-- A context carrying a valid span and a custom-key trace id at once, for
concrete evaluation. -/
def ctxWithSpan : Ctx :=
  { span := some { valid := true, traceID := "span-id" }
    traceVal := some "custom"
    requestVal := some "rid" }

/-- Options exercising case-insensitive mapping, duplicates, an unknown sink
name, and a rotating file at once, for concrete evaluation. -/
def sampleOpts : Options :=
  { NewOptions with
    OutputPaths := ["STDOUT", "stdout", "bogus", "stderr"]
    Filename := "app.log" }

/-- C1 counterexample: "DEBUG" is none of the seven lowercase severity
strings, yet WithLevel "DEBUG" overwrites the default level "info" with
"DEBUG" instead of leaving it unchanged. -/
theorem C1_counterexample :
    (WithLevel "DEBUG" NewOptions).Level = "DEBUG"
    ∧ NewOptions.Level = "info"
    ∧ "DEBUG" ∉ validLevelStrings := by
  decide

/-- C1 (amended): WithLevel stores the given string exactly when zap's level
parser accepts it — any case variant of the seven severities, or the empty
string — and leaves the configuration untouched on every string the parser
rejects. -/
theorem C1_withLevel_parse_gated (s : String) (o : Options) :
    ((unmarshalLevel s).isSome = true → WithLevel s o = { o with Level := s })
    ∧ ((unmarshalLevel s).isSome = false → WithLevel s o = o) := by
  constructor <;> intro h <;> unfold WithLevel <;>
    cases hu : unmarshalLevel s <;> rw [hu] at h <;> simp_all

/-- C1 witness: the accepted branch at "DEBUG" and the rejected branch at
"bogus", both on the default options. -/
theorem C1_witness :
    WithLevel "DEBUG" NewOptions = { NewOptions with Level := "DEBUG" }
    ∧ WithLevel "bogus" NewOptions = NewOptions :=
  ⟨(C1_withLevel_parse_gated "DEBUG" NewOptions).1 (by decide),
   (C1_withLevel_parse_gated "bogus" NewOptions).2 (by decide)⟩

/-- C2 counterexample: an adapter created in the initial state keeps emitting
through the initial global logger even though Init has installed a different
instance, so a write after re-initialization is not logged by the new global
logger. -/
theorem C2_counterexample :
    ((zapWriter.Write (GinWriter initState) [104, 105, 10]).2.map Entry.logger
      = [initState.std])
    ∧ (Init initState [WithLevel "warn"]).std ≠ initState.std := by
  decide

/-- C2 (amended): every write through a framework writer adapter is emitted
through the logger that was global when the adapter was created, at the
adapter's fixed severity, while Init installs a fresh logger instance into
the global slot without affecting previously created adapters. -/
theorem C2_adapter_logger_capture (s : LogState) (opts : List GoOption) (p : List Nat) :
    ((zapWriter.Write (GinWriter s) p).2.map Entry.logger = [s.std])
    ∧ ((zapWriter.Write (GinErrorWriter s) p).2.map Entry.logger = [s.std])
    ∧ ((zapWriter.Write (GinWriter s) p).2.map Entry.level = [ZapLevel.info])
    ∧ ((zapWriter.Write (GinErrorWriter s) p).2.map Entry.level = [ZapLevel.error])
    ∧ (Init s opts).std.uid = s.nextUid :=
  ⟨rfl, rfl, rfl, rfl, rfl⟩

/-- C2 witness: the amended statement evaluated in the initial state. -/
theorem C2_witness :
    ((zapWriter.Write (GinWriter initState) [104]).2.map Entry.logger = [initState.std])
    ∧ (Init initState [WithLevel "warn"]).std.uid = initState.nextUid :=
  ⟨(C2_adapter_logger_capture initState [WithLevel "warn"] [104]).1,
   (C2_adapter_logger_capture initState [WithLevel "warn"] [104]).2.2.2.2⟩

/-- C3 counterexample: with the development flag set, New changes the passed
configuration: its Level field reads "debug" after the call though it was
"info" before. -/
theorem C3_counterexample :
    (New { NewOptions with Development := true }).1.Level = "debug"
    ∧ ({ NewOptions with Development := true } : Options).Level = "info" := by
  decide

/-- C3 (amended): New leaves the passed configuration unchanged exactly when
the development flag is unset; when it is set, New mutates the configuration,
promoting Level "info" to "debug" and clearing DisableCaller, leaving every
other field as it was. -/
theorem C3_new_mutation (opts : Options) :
    (opts.Development = false → (New opts).1 = opts)
    ∧ (opts.Development = true →
        (New opts).1 =
          { opts with
            Level := if opts.Level = "info" then "debug" else opts.Level
            DisableCaller := false }) := by
  constructor <;> intro h <;> simp [New, devNormalize, h]

/-- C3 witness: the unchanged branch on the defaults and the mutating branch
with the development flag set. -/
theorem C3_witness :
    (New NewOptions).1 = NewOptions
    ∧ (New { NewOptions with Development := true }).1.Level = "debug" := by
  refine ⟨(C3_new_mutation NewOptions).1 rfl, ?_⟩
  have h := (C3_new_mutation { NewOptions with Development := true }).2 rfl
  rw [h]
  simp [NewOptions]

/-- C4 counterexample: a configuration whose MaxSize, MaxAge and MaxBackups
are all zero (none negative) still makes Validate return an error, because
its level string is invalid. -/
theorem C4_counterexample :
    (Config.Validate (some { zeroConfig with Level := "bogus" })).isSome = true
    ∧ ¬(({ zeroConfig with Level := "bogus" } : Config).MaxSize < 0
        ∨ ({ zeroConfig with Level := "bogus" } : Config).MaxAge < 0
        ∨ ({ zeroConfig with Level := "bogus" } : Config).MaxBackups < 0) := by
  decide

/-- C4 (amended): Validate on a non-nil Config returns an error if and only
if the level is non-empty and outside the seven severities, or the format is
non-empty and outside json/console, or one of MaxSize, MaxAge, MaxBackups is
negative. -/
theorem C4_validate_error_iff (c : Config) :
    (Config.Validate (some c)).isSome = true ↔
      ((c.Level ≠ "" ∧ c.Level ∉ validLevelStrings)
        ∨ (c.Format ≠ "" ∧ c.Format ∉ validFormatStrings)
        ∨ c.MaxSize < 0 ∨ c.MaxAge < 0 ∨ c.MaxBackups < 0) := by
  simp only [Config.Validate]
  split_ifs with h1 h2 h3 h4 h5 <;> simp_all

/-- C4 witness: the amended iff evaluated forward on a negative MaxAge and
backward on the all-zero configuration. -/
theorem C4_witness :
    (Config.Validate (some { zeroConfig with MaxAge := -1 })).isSome = true
    ∧ (Config.Validate (some zeroConfig)).isSome ≠ true := by
  refine ⟨(C4_validate_error_iff { zeroConfig with MaxAge := -1 }).mpr (by decide), ?_⟩
  intro h
  have h2 := (C4_validate_error_iff zeroConfig).mp h
  revert h2
  decide

/-- C7: for every byte slice, an adapter write emits exactly one entry whose
message has one trailing newline stripped when present (and is the input
unchanged otherwise), and reports the original input length with a nil
error. -/
theorem C7_write_strip_and_report (w : zapWriter) (p : List Nat) :
    ((zapWriter.Write w p).2.length = 1)
    ∧ ((zapWriter.Write w p).2.map Entry.msg = [stripTrailingNewline p])
    ∧ (p.getLast? = some 10 → stripTrailingNewline p = p.dropLast)
    ∧ (p.getLast? ≠ some 10 → stripTrailingNewline p = p)
    ∧ ((zapWriter.Write w p).1 = (p.length, none)) := by
  refine ⟨rfl, rfl, ?_, ?_, rfl⟩
  · intro h
    unfold stripTrailingNewline
    rw [h]
  · intro h
    unfold stripTrailingNewline
    split
    · next heq => exact absurd heq h
    · rfl

/-- C7 witness: a newline-terminated write and a bare write through the
info-severity adapter of the initial state. -/
theorem C7_witness :
    stripTrailingNewline [104, 10] = [104]
    ∧ stripTrailingNewline [104] = [104]
    ∧ (zapWriter.Write (GinWriter initState) [104, 10]).1 = (2, none) := by
  refine ⟨?_, ?_, (C7_write_strip_and_report (GinWriter initState) [104, 10]).2.2.2.2⟩
  · have h := (C7_write_strip_and_report (GinWriter initState) [104, 10]).2.2.1 (by decide)
    simpa using h
  · exact (C7_write_strip_and_report (GinWriter initState) [104]).2.2.2.1 (by decide)

/-- C9: with the development flag set, New promotes the level to "debug"
exactly when it reads "info" and enables caller information regardless of the
suppression flag; with the flag unset, the level and the suppression flag are
untouched and caller information follows the flag. -/
theorem C9_dev_normalization (opts : Options) :
    (opts.Development = true →
      (New opts).1.Level = (if opts.Level = "info" then "debug" else opts.Level)
      ∧ (New opts).2.addCaller = true)
    ∧ (opts.Development = false →
      (New opts).1.Level = opts.Level
      ∧ (New opts).1.DisableCaller = opts.DisableCaller
      ∧ (New opts).2.addCaller = !opts.DisableCaller) := by
  constructor <;> intro h <;> simp [New, devNormalize, buildCore, h]

/-- C9 witness: caller info forced on under development despite suppression,
and honoured suppression outside development. -/
theorem C9_witness :
    (New { NewOptions with Development := true, DisableCaller := true }).2.addCaller = true
    ∧ (New { NewOptions with DisableCaller := true }).2.addCaller = false := by
  constructor
  · exact ((C9_dev_normalization
      { NewOptions with Development := true, DisableCaller := true }).1 rfl).2
  · have h := ((C9_dev_normalization { NewOptions with DisableCaller := true }).2 rfl).2.2
    simpa using h

/-- C10: converting a non-nil Config to Options copies all twelve fields
verbatim with no defaults restored, ToOptions agrees with
ToLogOptionsFromConfig, and a Config with no output paths and no filename
yields an empty normal-output sink list (a multiwriter with no destinations,
which discards entries). -/
theorem C10_config_to_options_verbatim (cfg : Config) :
    ToLogOptionsFromConfig (some cfg) =
      { Level := cfg.Level
        Format := cfg.Format
        OutputPaths := cfg.OutputPaths
        ErrorOutputPaths := cfg.ErrorOutputPaths
        DisableCaller := cfg.DisableCaller
        DisableStacktrace := cfg.DisableStacktrace
        Filename := cfg.Filename
        MaxSize := cfg.MaxSize
        MaxAge := cfg.MaxAge
        MaxBackups := cfg.MaxBackups
        Compress := cfg.Compress
        Development := cfg.Development }
    ∧ Config.ToOptions (some cfg) = ToLogOptionsFromConfig (some cfg)
    ∧ (cfg.OutputPaths = [] → cfg.Filename = "" →
        getWriteSyncer (ToLogOptionsFromConfig (some cfg)) = []) := by
  refine ⟨rfl, rfl, ?_⟩
  intro hp hf
  simp [ToLogOptionsFromConfig, getWriteSyncer, hp, hf, consoleAppend]

/-- C10 witness: the all-zero Config keeps its empty fields and resolves to
an empty sink list. -/
theorem C10_witness :
    (ToLogOptionsFromConfig (some zeroConfig)).Level = ""
    ∧ (ToLogOptionsFromConfig (some zeroConfig)).OutputPaths = []
    ∧ getWriteSyncer (ToLogOptionsFromConfig (some zeroConfig)) = [] := by
  have h := C10_config_to_options_verbatim zeroConfig
  refine ⟨?_, ?_, h.2.2 rfl rfl⟩
  · rw [h.1]
    rfl
  · rw [h.1]
    rfl

/-- C5: on a context with no valid span where the setters stored non-empty
trace id T and request id R, FromContext derives a child of the global logger
carrying exactly the fields traceID=T and requestID=R (derivation via With,
which leaves the global logger value untouched); on a nil context, or a
context carrying neither value, FromContext returns the global logger
itself. -/
theorem C5_from_context_fields (std : Logger) (c : Ctx) (T R : String)
    (hspan : (spanFromContext c).valid = false) (hT : T ≠ "") (hR : R ≠ "") :
    FromContext std (some (ContextWithRequestID (ContextWithTraceID c T) R))
      = Logger.With std [("traceID", T), ("requestID", R)]
    ∧ FromContext std none = std
    ∧ (∀ c0 : Ctx, (spanFromContext c0).valid = false → c0.traceVal = none →
        c0.requestVal = none → FromContext std (some c0) = std) := by
  refine ⟨?_, rfl, ?_⟩
  · have hs : (spanFromContext
        { span := c.span, traceVal := some T, requestVal := some R : Ctx }).valid = false :=
      hspan
    simp [FromContext, extractTraceID, ContextWithRequestID, ContextWithTraceID,
      hs, hT, hR, Logger.With]
  · intro c0 h0 h1 h2
    simp [FromContext, extractTraceID, h0, h1, h2]

/-- C5 witness: the empty context with "T" and "R" stored yields the child
with both fields, and the nil context yields the global logger itself. -/
theorem C5_witness :
    FromContext initState.std (some (ContextWithRequestID
        (ContextWithTraceID emptyCtx "T") "R"))
      = Logger.With initState.std [("traceID", "T"), ("requestID", "R")]
    ∧ FromContext initState.std none = initState.std := by
  have h := C5_from_context_fields initState.std emptyCtx "T" "R"
    (by decide) (by decide) (by decide)
  exact ⟨h.1, h.2.1⟩

/-- C6: trace id extraction returns the span's trace id whenever the context
carries a valid span (even with a custom-key value also set, since the
context is arbitrary), falls back to a non-empty custom-key value when no
valid span is present, returns "" when the custom key is absent or empty,
TraceIDFromContext exposes the same extraction, and the request id lookup is
unaffected by whatever span the context carries. -/
theorem C6_trace_priority (c : Ctx) :
    (∀ s : SpanContext, c.span = some s → s.valid = true → extractTraceID c = s.traceID)
    ∧ (∀ t : String, (spanFromContext c).valid = false → c.traceVal = some t → t ≠ "" →
        extractTraceID c = t)
    ∧ ((spanFromContext c).valid = false → (c.traceVal = none ∨ c.traceVal = some "") →
        extractTraceID c = "")
    ∧ TraceIDFromContext c = extractTraceID c
    ∧ (∀ sp : Option SpanContext,
        RequestIDFromContext (some { c with span := sp }) = RequestIDFromContext (some c)) := by
  refine ⟨?_, ?_, ?_, rfl, ?_⟩
  · intro s hs hv
    simp [extractTraceID, spanFromContext, hs, hv]
  · intro t h0 h1 h2
    simp [extractTraceID, h0, h1, h2]
  · intro h0 h1
    rcases h1 with h1 | h1 <;> simp [extractTraceID, h0, h1]
  · intro sp
    rfl

/-- C6 witness: with a valid span the span id beats the stored custom value;
without the span the custom value is used; moving the span in and out leaves
the request id lookup unchanged. -/
theorem C6_witness :
    extractTraceID ctxWithSpan = "span-id"
    ∧ extractTraceID { ctxWithSpan with span := none } = "custom"
    ∧ RequestIDFromContext (some { ctxWithSpan with span := none })
        = RequestIDFromContext (some ctxWithSpan) := by
  refine ⟨?_, ?_, ?_⟩
  · exact (C6_trace_priority ctxWithSpan).1 { valid := true, traceID := "span-id" } rfl rfl
  · exact (C6_trace_priority { ctxWithSpan with span := none }).2.1 "custom"
      (by decide) rfl (by decide)
  · exact (C6_trace_priority ctxWithSpan).2.2.2.2 none

/-- Every sink the console loop adds on top of the accumulator is one of the
two streams. -/
theorem consoleAppend_mem_cases (x : Sink) (ps : List String) :
    ∀ (sinks : List Sink) (seen : List String),
      x ∈ consoleAppend sinks seen ps → x ∈ sinks ∨ x = Sink.stdout ∨ x = Sink.stderr := by
  induction ps with
  | nil =>
    intro sinks seen h
    exact Or.inl h
  | cons p rest ih =>
    intro sinks seen h
    simp only [consoleAppend] at h
    split_ifs at h with h1 h2 h3
    · exact ih sinks seen h
    · rcases ih _ _ h with hm | hx
      · rcases List.mem_append.mp hm with hl | hr
        · exact Or.inl hl
        · simp only [List.mem_singleton] at hr
          exact Or.inr (Or.inl hr)
      · exact Or.inr hx
    · rcases ih _ _ h with hm | hx
      · rcases List.mem_append.mp hm with hl | hr
        · exact Or.inl hl
        · simp only [List.mem_singleton] at hr
          exact Or.inr (Or.inr hr)
      · exact Or.inr hx
    · exact ih sinks seen h

/-- The stdout sink appears in the console loop's output exactly when it was
already in the accumulator, or "stdout" is not yet recorded as seen and some
path lowercases to "stdout". -/
theorem consoleAppend_stdout_mem (ps : List String) :
    ∀ (sinks : List Sink) (seen : List String),
      Sink.stdout ∈ consoleAppend sinks seen ps ↔
        Sink.stdout ∈ sinks ∨ ("stdout" ∉ seen ∧ ∃ p ∈ ps, asciiToLower p = "stdout") := by
  induction ps with
  | nil =>
    intro sinks seen
    simp [consoleAppend]
  | cons p rest ih =>
    intro sinks seen
    simp only [consoleAppend]
    split_ifs with h1 h2 h3
    · rw [ih]
      constructor
      · rintro (h | ⟨hn, q, hq, he⟩)
        · exact Or.inl h
        · exact Or.inr ⟨hn, q, List.mem_cons_of_mem _ hq, he⟩
      · rintro (h | ⟨hn, q, hq, he⟩)
        · exact Or.inl h
        · rcases List.mem_cons.mp hq with rfl | hq2
          · exact absurd (he ▸ h1) hn
          · exact Or.inr ⟨hn, q, hq2, he⟩
    · rw [ih]
      have hn : "stdout" ∉ seen := fun hc => h1 (h2.symm ▸ hc)
      exact iff_of_true
        (Or.inl (List.mem_append.mpr (Or.inr (List.mem_singleton.mpr rfl))))
        (Or.inr ⟨hn, p, List.mem_cons_self p rest, h2⟩)
    · rw [ih]
      constructor
      · rintro (hm | ⟨hn, q, hq, he⟩)
        · rcases List.mem_append.mp hm with hl | hr
          · exact Or.inl hl
          · simp at hr
        · exact Or.inr
            ⟨fun hc => hn (List.mem_cons_of_mem _ hc), q, List.mem_cons_of_mem _ hq, he⟩
      · rintro (hm | ⟨hn, q, hq, he⟩)
        · exact Or.inl (List.mem_append.mpr (Or.inl hm))
        · rcases List.mem_cons.mp hq with rfl | hq2
          · exact absurd (he ▸ h3) (by decide)
          · refine Or.inr ⟨?_, q, hq2, he⟩
            intro hc
            rcases List.mem_cons.mp hc with hc1 | hc2
            · exact absurd (hc1.trans h3) (by decide)
            · exact hn hc2
    · rw [ih]
      constructor
      · rintro (hm | ⟨hn, q, hq, he⟩)
        · exact Or.inl hm
        · exact Or.inr ⟨hn, q, List.mem_cons_of_mem _ hq, he⟩
      · rintro (hm | ⟨hn, q, hq, he⟩)
        · exact Or.inl hm
        · rcases List.mem_cons.mp hq with rfl | hq2
          · exact absurd he h2
          · exact Or.inr ⟨hn, q, hq2, he⟩

/-- The stderr sink appears in the console loop's output exactly when it was
already in the accumulator, or "stderr" is not yet recorded as seen and some
path lowercases to "stderr". -/
theorem consoleAppend_stderr_mem (ps : List String) :
    ∀ (sinks : List Sink) (seen : List String),
      Sink.stderr ∈ consoleAppend sinks seen ps ↔
        Sink.stderr ∈ sinks ∨ ("stderr" ∉ seen ∧ ∃ p ∈ ps, asciiToLower p = "stderr") := by
  induction ps with
  | nil =>
    intro sinks seen
    simp [consoleAppend]
  | cons p rest ih =>
    intro sinks seen
    simp only [consoleAppend]
    split_ifs with h1 h2 h3
    · rw [ih]
      constructor
      · rintro (h | ⟨hn, q, hq, he⟩)
        · exact Or.inl h
        · exact Or.inr ⟨hn, q, List.mem_cons_of_mem _ hq, he⟩
      · rintro (h | ⟨hn, q, hq, he⟩)
        · exact Or.inl h
        · rcases List.mem_cons.mp hq with rfl | hq2
          · exact absurd (he ▸ h1) hn
          · exact Or.inr ⟨hn, q, hq2, he⟩
    · rw [ih]
      constructor
      · rintro (hm | ⟨hn, q, hq, he⟩)
        · rcases List.mem_append.mp hm with hl | hr
          · exact Or.inl hl
          · simp at hr
        · exact Or.inr
            ⟨fun hc => hn (List.mem_cons_of_mem _ hc), q, List.mem_cons_of_mem _ hq, he⟩
      · rintro (hm | ⟨hn, q, hq, he⟩)
        · exact Or.inl (List.mem_append.mpr (Or.inl hm))
        · rcases List.mem_cons.mp hq with rfl | hq2
          · exact absurd (he ▸ h2) (by decide)
          · refine Or.inr ⟨?_, q, hq2, he⟩
            intro hc
            rcases List.mem_cons.mp hc with hc1 | hc2
            · exact absurd (hc1.trans h2) (by decide)
            · exact hn hc2
    · rw [ih]
      have hn : "stderr" ∉ seen := fun hc => h1 (h3.symm ▸ hc)
      exact iff_of_true
        (Or.inl (List.mem_append.mpr (Or.inr (List.mem_singleton.mpr rfl))))
        (Or.inr ⟨hn, p, List.mem_cons_self p rest, h3⟩)
    · rw [ih]
      constructor
      · rintro (hm | ⟨hn, q, hq, he⟩)
        · exact Or.inl hm
        · exact Or.inr ⟨hn, q, List.mem_cons_of_mem _ hq, he⟩
      · rintro (hm | ⟨hn, q, hq, he⟩)
        · exact Or.inl hm
        · rcases List.mem_cons.mp hq with rfl | hq2
          · exact absurd he h3
          · exact Or.inr ⟨hn, q, hq2, he⟩

/-- Unfolding rule for the console loop when the lowered path was already
seen. -/
theorem consoleAppend_cons_of_seen (sinks : List Sink) (seen : List String)
    (p : String) (rest : List String) (h : asciiToLower p ∈ seen) :
    consoleAppend sinks seen (p :: rest) = consoleAppend sinks seen rest := by
  simp only [consoleAppend]
  rw [if_pos h]

/-- Unfolding rule for the console loop on a fresh path lowering to
"stdout". -/
theorem consoleAppend_cons_of_stdout (sinks : List Sink) (seen : List String)
    (p : String) (rest : List String) (h1 : asciiToLower p ∉ seen)
    (h2 : asciiToLower p = "stdout") :
    consoleAppend sinks seen (p :: rest)
      = consoleAppend (sinks ++ [Sink.stdout]) (asciiToLower p :: seen) rest := by
  simp only [consoleAppend]
  rw [if_neg h1, if_pos h2]

/-- Unfolding rule for the console loop on a fresh path lowering to
"stderr". -/
theorem consoleAppend_cons_of_stderr (sinks : List Sink) (seen : List String)
    (p : String) (rest : List String) (h1 : asciiToLower p ∉ seen)
    (h2 : asciiToLower p ≠ "stdout") (h3 : asciiToLower p = "stderr") :
    consoleAppend sinks seen (p :: rest)
      = consoleAppend (sinks ++ [Sink.stderr]) (asciiToLower p :: seen) rest := by
  simp only [consoleAppend]
  rw [if_neg h1, if_neg h2, if_pos h3]

/-- Unfolding rule for the console loop on a path that is neither stream
name: it is dropped. -/
theorem consoleAppend_cons_of_other (sinks : List Sink) (seen : List String)
    (p : String) (rest : List String) (h1 : asciiToLower p ∉ seen)
    (h2 : asciiToLower p ≠ "stdout") (h3 : asciiToLower p ≠ "stderr") :
    consoleAppend sinks seen (p :: rest) = consoleAppend sinks seen rest := by
  simp only [consoleAppend]
  rw [if_neg h1, if_neg h2, if_neg h3]

/-- The console loop adds the stdout sink at most once: its multiplicity in
the output is bounded by the accumulator's plus one, and stays fixed once
"stdout" has been recorded as seen. -/
theorem consoleAppend_stdout_count (ps : List String) :
    ∀ (sinks : List Sink) (seen : List String),
      (consoleAppend sinks seen ps).count Sink.stdout ≤
        sinks.count Sink.stdout + (if "stdout" ∈ seen then 0 else 1) := by
  induction ps with
  | nil =>
    intro sinks seen
    exact Nat.le_add_right _ _
  | cons p rest ih =>
    intro sinks seen
    by_cases h1 : asciiToLower p ∈ seen
    · rw [consoleAppend_cons_of_seen _ _ _ _ h1]
      exact ih sinks seen
    · by_cases h2 : asciiToLower p = "stdout"
      · rw [consoleAppend_cons_of_stdout _ _ _ _ h1 h2]
        have h := ih (sinks ++ [Sink.stdout]) (asciiToLower p :: seen)
        have hseen : "stdout" ∈ asciiToLower p :: seen := by
          rw [h2]
          exact List.mem_cons_self _ _
        rw [if_pos hseen] at h
        rw [show (sinks ++ [Sink.stdout]).count Sink.stdout
            = sinks.count Sink.stdout + 1 from by simp [List.count_append]] at h
        have hn : "stdout" ∉ seen := fun hc => h1 (h2.symm ▸ hc)
        rw [if_neg hn]
        omega
      · by_cases h3 : asciiToLower p = "stderr"
        · rw [consoleAppend_cons_of_stderr _ _ _ _ h1 h2 h3]
          have h := ih (sinks ++ [Sink.stderr]) (asciiToLower p :: seen)
          rw [show (sinks ++ [Sink.stderr]).count Sink.stdout
              = sinks.count Sink.stdout from by simp [List.count_append]] at h
          by_cases hseen : "stdout" ∈ seen
          · rw [if_pos (List.mem_cons_of_mem _ hseen)] at h
            rw [if_pos hseen]
            exact h
          · have hseen2 : "stdout" ∉ asciiToLower p :: seen := by
              intro hc
              rcases List.mem_cons.mp hc with hc1 | hc2
              · exact absurd (hc1.trans h3) (by decide)
              · exact hseen hc2
            rw [if_neg hseen2] at h
            rw [if_neg hseen]
            exact h
        · rw [consoleAppend_cons_of_other _ _ _ _ h1 h2 h3]
          exact ih sinks seen

/-- The console loop adds the stderr sink at most once, symmetrically. -/
theorem consoleAppend_stderr_count (ps : List String) :
    ∀ (sinks : List Sink) (seen : List String),
      (consoleAppend sinks seen ps).count Sink.stderr ≤
        sinks.count Sink.stderr + (if "stderr" ∈ seen then 0 else 1) := by
  induction ps with
  | nil =>
    intro sinks seen
    exact Nat.le_add_right _ _
  | cons p rest ih =>
    intro sinks seen
    by_cases h1 : asciiToLower p ∈ seen
    · rw [consoleAppend_cons_of_seen _ _ _ _ h1]
      exact ih sinks seen
    · by_cases h2 : asciiToLower p = "stdout"
      · rw [consoleAppend_cons_of_stdout _ _ _ _ h1 h2]
        have h := ih (sinks ++ [Sink.stdout]) (asciiToLower p :: seen)
        rw [show (sinks ++ [Sink.stdout]).count Sink.stderr
            = sinks.count Sink.stderr from by simp [List.count_append]] at h
        by_cases hseen : "stderr" ∈ seen
        · rw [if_pos (List.mem_cons_of_mem _ hseen)] at h
          rw [if_pos hseen]
          exact h
        · have hseen2 : "stderr" ∉ asciiToLower p :: seen := by
            intro hc
            rcases List.mem_cons.mp hc with hc1 | hc2
            · exact absurd (hc1.trans h2) (by decide)
            · exact hseen hc2
          rw [if_neg hseen2] at h
          rw [if_neg hseen]
          exact h
      · by_cases h3 : asciiToLower p = "stderr"
        · rw [consoleAppend_cons_of_stderr _ _ _ _ h1 h2 h3]
          have h := ih (sinks ++ [Sink.stderr]) (asciiToLower p :: seen)
          have hseen : "stderr" ∈ asciiToLower p :: seen := by
            rw [h3]
            exact List.mem_cons_self _ _
          rw [if_pos hseen] at h
          rw [show (sinks ++ [Sink.stderr]).count Sink.stderr
              = sinks.count Sink.stderr + 1 from by simp [List.count_append]] at h
          have hn : "stderr" ∉ seen := fun hc => h1 (h3.symm ▸ hc)
          rw [if_neg hn]
          omega
        · rw [consoleAppend_cons_of_other _ _ _ _ h1 h2 h3]
          exact ih sinks seen

/-- The console loop never adds a file sink: a file sink is in its output
exactly when it was in the accumulator. -/
theorem consoleAppend_file_mem (cfg : LumberjackLogger) (ps : List String) :
    ∀ (sinks : List Sink) (seen : List String),
      Sink.file cfg ∈ consoleAppend sinks seen ps ↔ Sink.file cfg ∈ sinks := by
  induction ps with
  | nil =>
    intro sinks seen
    exact Iff.rfl
  | cons p rest ih =>
    intro sinks seen
    simp only [consoleAppend]
    split_ifs with h1 h2 h3
    · exact ih sinks seen
    · rw [ih (sinks ++ [Sink.stdout]) (asciiToLower p :: seen)]
      simp
    · rw [ih (sinks ++ [Sink.stderr]) (asciiToLower p :: seen)]
      simp
    · exact ih sinks seen

/-- The rotating-file sink is in getWriteSyncer's result exactly when a
non-empty filename is configured, for any output-path list. -/
theorem getWriteSyncer_file_mem (opts : Options) (ps : List String) :
    Sink.file (lumberjackOf opts) ∈ consoleAppend
        (if opts.Filename = "" then [] else [Sink.file (lumberjackOf opts)]) [] ps ↔
      opts.Filename ≠ "" := by
  rw [consoleAppend_file_mem]
  split_ifs with h <;> simp [h]

/-- C8: normal-output sink resolution puts a stream in the result exactly
when some destination lowercases to its name, adds each stream at most once,
produces only the two streams and the configured rotating-file sink (so every
other destination name is dropped), and includes the rotating-file sink
exactly when a filename is configured — independently of the destination
list. -/
theorem C8_sink_resolution (opts : Options) :
    (Sink.stdout ∈ getWriteSyncer opts ↔ ∃ p ∈ opts.OutputPaths, asciiToLower p = "stdout")
    ∧ (Sink.stderr ∈ getWriteSyncer opts ↔ ∃ p ∈ opts.OutputPaths, asciiToLower p = "stderr")
    ∧ (getWriteSyncer opts).count Sink.stdout ≤ 1
    ∧ (getWriteSyncer opts).count Sink.stderr ≤ 1
    ∧ (∀ x ∈ getWriteSyncer opts,
        x = Sink.stdout ∨ x = Sink.stderr ∨ x = Sink.file (lumberjackOf opts))
    ∧ (Sink.file (lumberjackOf opts) ∈ getWriteSyncer opts ↔ opts.Filename ≠ "")
    ∧ (∀ ps : List String,
        Sink.file (lumberjackOf opts) ∈ getWriteSyncer { opts with OutputPaths := ps } ↔
          opts.Filename ≠ "") := by
  have hb0 : Sink.stdout ∉
      (if opts.Filename = "" then [] else [Sink.file (lumberjackOf opts)]) := by
    split_ifs <;> simp
  have hb1 : Sink.stderr ∉
      (if opts.Filename = "" then [] else [Sink.file (lumberjackOf opts)]) := by
    split_ifs <;> simp
  have hc0 : (if opts.Filename = "" then []
      else [Sink.file (lumberjackOf opts)]).count Sink.stdout = 0 := by
    split_ifs <;> simp
  have hc1 : (if opts.Filename = "" then []
      else [Sink.file (lumberjackOf opts)]).count Sink.stderr = 0 := by
    split_ifs <;> simp
  refine ⟨?_, ?_, ?_, ?_, ?_, ?_, ?_⟩
  · rw [show getWriteSyncer opts = consoleAppend
        (if opts.Filename = "" then [] else [Sink.file (lumberjackOf opts)]) []
        opts.OutputPaths from rfl,
      consoleAppend_stdout_mem]
    simp [hb0]
  · rw [show getWriteSyncer opts = consoleAppend
        (if opts.Filename = "" then [] else [Sink.file (lumberjackOf opts)]) []
        opts.OutputPaths from rfl,
      consoleAppend_stderr_mem]
    simp [hb1]
  · have h := consoleAppend_stdout_count opts.OutputPaths
      (if opts.Filename = "" then [] else [Sink.file (lumberjackOf opts)]) []
    rw [hc0] at h
    simpa using h
  · have h := consoleAppend_stderr_count opts.OutputPaths
      (if opts.Filename = "" then [] else [Sink.file (lumberjackOf opts)]) []
    rw [hc1] at h
    simpa using h
  · intro x hx
    rcases consoleAppend_mem_cases x opts.OutputPaths
        (if opts.Filename = "" then [] else [Sink.file (lumberjackOf opts)]) [] hx with
      hm | hx2
    · right
      right
      revert hm
      split_ifs <;> intro hm <;> simp_all
    · rcases hx2 with h | h
      · exact Or.inl h
      · exact Or.inr (Or.inl h)
  · exact getWriteSyncer_file_mem opts opts.OutputPaths
  · intro ps
    exact getWriteSyncer_file_mem opts ps

/-- C8 witness: on options listing "STDOUT", "stdout", "bogus" and "stderr"
with a configured filename, stdout is resolved, appears once, is one of the
allowed sinks, and the file sink is present. -/
theorem C8_witness :
    Sink.stdout ∈ getWriteSyncer sampleOpts
    ∧ (getWriteSyncer sampleOpts).count Sink.stdout ≤ 1
    ∧ (Sink.stdout = Sink.stdout ∨ Sink.stdout = Sink.stderr
        ∨ Sink.stdout = Sink.file (lumberjackOf sampleOpts))
    ∧ Sink.file (lumberjackOf sampleOpts) ∈ getWriteSyncer sampleOpts := by
  have h := C8_sink_resolution sampleOpts
  refine ⟨?_, h.2.2.1, ?_, ?_⟩
  · exact h.1.mpr ⟨"STDOUT", by decide, by decide⟩
  · exact h.2.2.2.2.1 Sink.stdout (h.1.mpr ⟨"STDOUT", by decide, by decide⟩)
  · exact h.2.2.2.2.2.1.mpr (by decide)

end FrameworkLog
